import Mathlib

/-!
# Verification of the CV-Parser backend (`src/main.py`)

A shallow embedding of the single-endpoint resume-parsing service.  The
service (FastAPI app in `main.py`) accepts an uploaded file, extracts its
text, uploads the original bytes to a document store, asks an LLM for a JSON
object of candidate fields, merges the extracted skills into the global CRM
skill enumeration, and upserts a CRM contact keyed by email.

External collaborators (the PDF/DOCX parsing libraries, the HTTP client,
the LLM, and the CRM SDK) are modelled as oracle fields of an `Env`
record: the embedding fixes only the orchestration logic that `main.py`
itself implements, which is what the claims are about.

Python-specific behaviour that the control flow depends on is modelled
explicitly:
* `str.strip()` / `\s` in the regexes strip the six ASCII whitespace
  characters (space, \t, \n, \r, \x0b, \x0c);
* the FastAPI `HTTPException` class derives from `Exception`, so a blanket
  `except Exception` catches it; `str(e)` for an `HTTPException` is
  the status code, a colon and a space, then the detail text
  (the Starlette dunder-str);
* `json.loads` accepts a single JSON document surrounded by whitespace;
  numbers are modelled by their source lexeme and string escapes are kept
  raw, which is faithful up to numeric/escape normalisation that no claim
  depends on;
* Python `dict`s keep the first-insertion position of a key and the last
  value assigned to it; `set`s deduplicate, and their iteration order is
  unspecified — the embedding fixes the sorted order as a canonical
  representative, and no claim depends on the order chosen.
-/

/-! ## Python whitespace primitives -/

/-- The six ASCII whitespace characters stripped by the Python method `str.strip()`
and matched by `\s` in the `re` module (ASCII range). -/
def pyIsSpace (c : Char) : Bool :=
  c = ' ' || c = '\t' || c = '\n' || c = '\r' || c = '\x0b' || c = '\x0c'

/-- Model of `str.strip()` on the underlying character list: drop leading and
trailing whitespace. -/
def pyStripL (l : List Char) : List Char :=
  (l.dropWhile pyIsSpace).rdropWhile pyIsSpace

/-- Python `str.strip()`. -/
def pyStripStr (s : String) : String := ⟨pyStripL s.data⟩

/-! ## JSON values and a model of `json.loads`

`main.py` calls `json.loads` on the sanitized LLM response.  The parser
below models it: one JSON document, optionally surrounded by whitespace.
Numbers are kept as their source lexemes and string escape sequences are
kept raw (no claim depends on numeric or escape normalisation).  Object
keys follow Python `dict` semantics: first-insertion position, last value
wins. -/

inductive Json where
  | null
  | bool (b : Bool)
  | num (lexeme : String)
  | str (s : String)
  | arr (elems : List Json)
  | obj (members : List (String × Json))
deriving Repr

/-- The whitespace characters of JSON (RFC 8259): space, tab, LF, CR. -/
def jsonWsB (c : Char) : Bool := c = ' ' || c = '\t' || c = '\n' || c = '\r'

def skipJsonWs (l : List Char) : List Char := l.dropWhile jsonWsB

def isJsonDigit (c : Char) : Bool := '0' ≤ c && c ≤ '9'

/-- Lex a JSON number (`-?int frac? exp?`), returning the lexeme and the
rest of the input.  A malformed tail (e.g. `1.` with no digits) is left
unconsumed so that the surrounding grammar rejects it. -/
def lexNumber (l : List Char) : Option (List Char × List Char) :=
  let p := match l with
    | '-' :: r => (['-'], r)
    | _ => (([] : List Char), l)
  match p.2 with
  | [] => none
  | c :: _ =>
    if isJsonDigit c then
      let intPart := p.2.takeWhile isJsonDigit
      let r1 := p.2.dropWhile isJsonDigit
      let intOk := match intPart with
        | '0' :: _ :: _ => false
        | _ => true
      if intOk then
        let f := match r1 with
          | '.' :: rest =>
            match rest.takeWhile isJsonDigit with
            | [] => (([] : List Char), r1)
            | ds => ('.' :: ds, rest.dropWhile isJsonDigit)
          | _ => (([] : List Char), r1)
        let e := match f.2 with
          | c2 :: rest =>
            if c2 = 'e' || c2 = 'E' then
              let sg := match rest with
                | s :: r' => if s = '+' || s = '-' then ([s], r') else (([] : List Char), rest)
                | [] => (([] : List Char), rest)
              match sg.2.takeWhile isJsonDigit with
              | [] => (([] : List Char), f.2)
              | ds => (c2 :: (sg.1 ++ ds), sg.2.dropWhile isJsonDigit)
            else (([] : List Char), f.2)
          | [] => (([] : List Char), f.2)
        some (p.1 ++ intPart ++ f.1 ++ e.1, e.2)
      else none
    else none

/-- Parse the body of a JSON string after the opening quote, up to the
closing quote.  Escape sequences are kept raw; a `\"` pair does not close
the string. -/
def parseStringBody : List Char → Option (List Char × List Char)
  | [] => none
  | c :: cs =>
    if c = '"' then some ([], cs)
    else if c = '\\' then
      match cs with
      | [] => none
      | d :: ds => (parseStringBody ds).map (fun r => (c :: d :: r.1, r.2))
    else (parseStringBody cs).map (fun r => (c :: r.1, r.2))

/-- Insert a key/value pair into an association list with Python `dict`
semantics: an existing key keeps its position but takes the new value. -/
def insertKV : List (String × Json) → String × Json → List (String × Json)
  | [], kv => [kv]
  | (k, v) :: rest, kv =>
    if k = kv.1 then (k, kv.2) :: rest else (k, v) :: insertKV rest kv

def dedupKeys (ms : List (String × Json)) : List (String × Json) :=
  ms.foldl insertKV []

mutual

def parseVal : Nat → List Char → Option (Json × List Char)
  | 0, _ => none
  | n + 1, l =>
    match skipJsonWs l with
    | [] => none
    | 'n' :: 'u' :: 'l' :: 'l' :: r => some (.null, r)
    | 't' :: 'r' :: 'u' :: 'e' :: r => some (.bool true, r)
    | 'f' :: 'a' :: 'l' :: 's' :: 'e' :: r => some (.bool false, r)
    | '"' :: r =>
      match parseStringBody r with
      | some (b, rest) => some (.str ⟨b⟩, rest)
      | none => none
    | '[' :: r =>
      match skipJsonWs r with
      | ']' :: r' => some (.arr [], r')
      | _ =>
        match parseElems n r with
        | some (es, r') => some (.arr es, r')
        | none => none
    | '\x7b' :: r =>
      match skipJsonWs r with
      | '\x7d' :: r' => some (.obj [], r')
      | _ =>
        match parseMembers n r with
        | some (ms, r') => some (.obj (dedupKeys ms), r')
        | none => none
    | c :: r =>
      match lexNumber (c :: r) with
      | some (lex, rest) => some (.num ⟨lex⟩, rest)
      | none => none

def parseElems : Nat → List Char → Option (List Json × List Char)
  | 0, _ => none
  | n + 1, l =>
    match parseVal n l with
    | none => none
    | some (v, r) =>
      match skipJsonWs r with
      | ',' :: r' =>
        match parseElems n r' with
        | some (vs, r'') => some (v :: vs, r'')
        | none => none
      | ']' :: r' => some ([v], r')
      | _ => none

def parseMembers : Nat → List Char → Option (List (String × Json) × List Char)
  | 0, _ => none
  | n + 1, l =>
    match skipJsonWs l with
    | '"' :: r =>
      match parseStringBody r with
      | none => none
      | some (key, r1) =>
        match skipJsonWs r1 with
        | ':' :: r2 =>
          match parseVal n r2 with
          | none => none
          | some (v, r3) =>
            match skipJsonWs r3 with
            | ',' :: r4 =>
              match parseMembers n r4 with
              | some (ms, r5) => some ((⟨key⟩, v) :: ms, r5)
              | none => none
            | '}' :: r4 => some ([(⟨key⟩, v)], r4)
            | _ => none
        | _ => none
    | _ => none

end

/-- Model of `json.loads`: one JSON document; surrounding whitespace is
ignored (the pipeline always `strip`s before parsing, so pre-stripping with
the Python whitespace set is observationally equivalent here). -/
def jsonParse (s : String) : Option Json :=
  let l := pyStripL s.data
  match parseVal (2 * l.length + 2) l with
  | some (v, r) => if skipJsonWs r = [] then some v else none
  | none => none

/-! ## Response sanitization (`main.py` lines 154-157)

```
raw = response.text.strip()
raw = re.sub(r"^```(?:json)?\s*", "", raw)
raw = re.sub(r"\s*```$", "", raw)
```

The first regex is anchored at the start and so substitutes at most once:
a leading ``` fence, greedily extended by `json` when present, then any
whitespace.  The second removes a trailing ``` fence together with the
whitespace before it; since the input was `strip`ped first (and the first
substitution only removes a prefix), the string never ends in whitespace
at that point, so `$` matching end-of-string is exact. -/

def stripLeadingFence (l : List Char) : List Char :=
  if l.take 7 = "```json".data then (l.drop 7).dropWhile pyIsSpace
  else if l.take 3 = "```".data then (l.drop 3).dropWhile pyIsSpace
  else l

def stripTrailingFence (l : List Char) : List Char :=
  if l.rtake 3 = "```".data then (l.rdrop 3).rdropWhile pyIsSpace
  else l

def sanitizeL (l : List Char) : List Char :=
  stripTrailingFence (stripLeadingFence (pyStripL l))

/-- Lines 154-157 of `main.py`: strip, remove a leading fence marker
(optionally tagged `json`), remove a trailing fence marker. -/
def sanitize (s : String) : String := ⟨sanitizeL s.data⟩

/-- A fenced code block wrapping of a payload, with tag `""` or `"json"`
after the opening fence. -/
def fenceWrap (tag p : String) : String := "```" ++ tag ++ "\n" ++ p ++ "\n```"

/-! ## Name splitting (`main.py` lines 160-163)

```
name = parsed.get("name", "").strip()
parts = name.split()
firstname = parts[0] if parts else ""
lastname = " ".join(parts[1:]) if len(parts) > 1 else ""
```
-/

/-- Python `str.split()` (no separator): the maximal runs of
non-whitespace characters, in order; empty runs are not produced. -/
def wsTokens : List Char → List (List Char)
  | [] => []
  | c :: cs =>
    if pyIsSpace c then wsTokens cs
    else (c :: cs.takeWhile (fun d => !pyIsSpace d)) ::
      wsTokens (cs.dropWhile (fun d => !pyIsSpace d))
termination_by l => l.length
decreasing_by
  · exact Nat.lt_succ_of_le (Nat.le_refl _)
  · exact Nat.lt_succ_of_le (List.Sublist.length_le (List.dropWhile_sublist _))

def pyWsSplit (s : String) : List String := (wsTokens s.data).map (fun t => ⟨t⟩)

/-- Lines 160-163 of `main.py` applied to the raw `name` value: strip,
split on whitespace, first token / rest joined by single spaces. -/
def splitFullName (name : String) : String × String :=
  let parts := pyWsSplit (pyStripStr name)
  (parts.headD "",
   if parts.length > 1 then String.intercalate " " parts.tail else "")

/-! ## Field access with Python `dict`/dynamic semantics

The parsed LLM output is an arbitrary JSON value; `main.py` accesses it
with `parsed.get(...)` and `parsed[...]` without validation, so failures
surface as Python exceptions caught by the blanket `except Exception`.
Exception messages that no claim inspects are approximated (comments mark
them); `str(KeyError(k))` is modelled exactly as `'k'`. -/

def objLookup (ms : List (String × Json)) (k : String) : Option Json :=
  (ms.find? (fun m => m.1 = k)).map (·.2)

/-- Model of `parsed.get(k, default)`; on a non-dict value `.get` raises
`AttributeError` (message approximated). -/
def pyGet (v : Json) (k : String) (dflt : Json) : Except String Json :=
  match v with
  | .obj ms => .ok ((objLookup ms k).getD dflt)
  | _ => .error ("AttributeError: object has no attribute get (" ++ k ++ ")")

/-- Model of `parsed.get(k, "")` expected to be a string (the code immediately
calls `.strip()` on it, which raises `AttributeError` on non-strings;
message approximated). -/
def pyGetStrRaw (v : Json) (k : String) : Except String String :=
  match pyGet v k (.str "") with
  | .error m => .error m
  | .ok (.str s) => .ok s
  | .ok _ => .error "AttributeError: object has no attribute strip"

/-- Model of `parsed[k]`; `str(KeyError(k))` is the `repr` of the key, `'k'`. -/
def pyIndex (v : Json) (k : String) : Except String Json :=
  match v with
  | .obj ms =>
    match objLookup ms k with
    | some x => .ok x
    | none => .error ("'" ++ k ++ "'")
  | _ => .error "TypeError: object is not subscriptable"

/-- Model of `parsed[k]` used as a string property value.  Non-string values would
fail downstream inside the CRM SDK calls; modelled as an error at the
lookup (message approximated, no claim depends on it). -/
def pyIndexStr (v : Json) (k : String) : Except String String :=
  match pyIndex v k with
  | .error m => .error m
  | .ok (.str s) => .ok s
  | .ok _ => .error ("TypeError: expected string value for key " ++ k)

def toStrList : List Json → Option (List String)
  | [] => some []
  | .str s :: rest => (toStrList rest).map (s :: ·)
  | _ :: _ => none

/-- Model of `set(parsed.get("skills", []))` (line 173) together with the later
uses `sorted(combined)` (line 180) and `";".join(selected)` (line 199),
which require every element to be a string.  The faithful cases are: key
absent (default `[]`), and a JSON array of strings; anything else is
modelled as the Python exception those lines would raise (message
approximated). -/
def pyGetSkills (v : Json) : Except String (List String) :=
  match pyGet v "skills" (.arr []) with
  | .error m => .error m
  | .ok (.arr es) =>
    match toStrList es with
    | some l => .ok l
    | none => .error "TypeError: skill values must be strings"
  | .ok _ => .error "TypeError: skills value is not a list"

/-! ## Text extraction (`main.py` lines 61-73) -/

def pdfCT : String := "application/pdf"
def docxCT : String :=
  "application/vnd.openxmlformats-officedocument.wordprocessingml.document"
def docCT : String := "application/msword"

/-- Model of `extract_text_from_pdf`: concatenate the per-page text in page order;
a page with no extractable text (library returns `None`) contributes `""`
and is modelled as the empty string in the page list. -/
def extract_text_from_pdf (pages : List String) : String := String.join pages

/-- The fate of the `NamedTemporaryFile` used by `extract_text_from_docx`:
it is created with `delete=False` (so closing it at the end of the `with`
block does not remove it), and `main.py` contains no later
`os.unlink`/`os.remove` for it. -/
structure TmpFile where
  created : Bool
  deleteOnClose : Bool
  unlinkedAfter : Bool
deriving Repr, DecidableEq

/-- Whether the temporary file still exists on disk after the extraction
call returns. -/
def tmpPersists (t : TmpFile) : Bool :=
  t.created && !t.deleteOnClose && !t.unlinkedAfter

/-- Model of `extract_text_from_docx`: write the bytes to a
`NamedTemporaryFile(delete=False, suffix=".docx")`, parse, and join the
non-blank paragraph texts with newlines.  Returns the text together with
the fate of the temporary file. -/
def extract_text_from_docx (paragraphs : List String) : String × TmpFile :=
  (String.intercalate "\n" (paragraphs.filter (fun p => pyStripStr p != "")),
   { created := true, deleteOnClose := false, unlinkedAfter := false })

/-! ## The endpoint (`main.py` lines 109-283)

`Env` packages the behaviour of every external collaborator for one
request; `Effects` records which outbound operations the handler issued
(an `Option` field records the payload of an issued call, `none` meaning
the call was never made). -/

structure Env where
  /-- Value of `file.content_type` as declared by the client. -/
  contentType : String
  /-- Per-page text the PDF library would extract. -/
  pdfPages : List String
  /-- Paragraph texts the DOCX library would extract. -/
  docxParagraphs : List String
  /-- Set to `some msg` iff the PDF library raises, with `str(e) = msg`. -/
  pdfRaises : Option String
  /-- Set to `some msg` iff the DOCX library raises. -/
  docxRaises : Option String
  /-- Whether the document-store upload returns a success HTTP status. -/
  uploadHttpOk : Bool
  /-- Upstream status code of a failed upload. -/
  uploadStatus : Nat
  /-- Upstream response body of a failed upload. -/
  uploadBody : String
  /-- Value of `resp.json().get("url")` of a successful upload. -/
  uploadUrl : Option String
  /-- Set to `some msg` iff the LLM call (or reading `response.text`) raises. -/
  llmRaises : Option String
  /-- Text `response.text` returned by the LLM. -/
  llmText : String
  /-- Values `opt.value` for the options of the CRM `skills` property. -/
  propOptions : List String
  /-- Set to `some msg` iff the CRM property read raises. -/
  propReadRaises : Option String
  /-- Set to `some msg` iff the CRM property update raises. -/
  propUpdateRaises : Option String
  /-- Set to `some msg` iff the CRM contact search raises. -/
  searchRaises : Option String
  /-- Id of the first search result, if the search finds a contact. -/
  searchFound : Option String
  /-- Set to `some msg` iff the CRM contact update raises. -/
  updateRaises : Option String
  /-- Set to `some msg` iff the CRM contact create raises. -/
  createRaises : Option String

structure Effects where
  llmCalled : Bool
  uploadCalled : Bool
  /-- Whether the CRM `skills`-property schema read was issued. -/
  propRead : Bool
  /-- The `(label, value)` option list sent to the CRM schema update. -/
  propUpdate : Option (List (String × String))
  /-- The `(email, limit)` of the issued contact search. -/
  searchReq : Option (String × Nat)
  /-- Pair `(contact_id, properties)` of the issued contact update. -/
  contactUpdate : Option (String × List (String × String))
  /-- Dict `properties` of the issued contact create. -/
  contactCreate : Option (List (String × String))
deriving Repr, DecidableEq

def noEffects : Effects :=
  { llmCalled := false, uploadCalled := false, propRead := false,
    propUpdate := none, searchReq := none,
    contactUpdate := none, contactCreate := none }

inductive HttpResult where
  | ok (body : Json)
  | err (status : Nat) (detail : String)
deriving Repr

/-- Model of `upload_bytes_to_hs` (lines 75-107): on a non-success status, raise
`HTTPException(resp.status_code, "HubSpot upload failed: " + body)`; on a
success response without a `url`, raise `HTTPException(500, ...)`;
otherwise return the url. -/
def upload_bytes_to_hs (env : Env) : Except (Nat × String) String :=
  if env.uploadHttpOk then
    match env.uploadUrl with
    | none => .error (500, "File uploaded, but URL not returned by HubSpot.")
    | some url => .ok url
  else .error (env.uploadStatus, "HubSpot upload failed: " ++ env.uploadBody)

/-- The contact-update properties dict (lines 215-223), values evaluated
left to right, so a missing key raises before later lookups. -/
def updatePropsOf (parsed : Json) (firstname lastname skills_str file_url : String) :
    Except String (List (String × String)) :=
  match pyIndexStr parsed "phone" with
  | .error m => .error m
  | .ok phone =>
  match pyIndexStr parsed "job_title" with
  | .error m => .error m
  | .ok jobtitle =>
  match pyIndexStr parsed "company" with
  | .error m => .error m
  | .ok company =>
    .ok [("firstname", firstname), ("lastname", lastname), ("phone", phone),
         ("jobtitle", jobtitle), ("company", company), ("skills", skills_str),
         ("resume_file_url", file_url)]

/-- The contact-create properties dict (lines 228-237): the same fields
plus `email`, in source order. -/
def createPropsOf (parsed : Json) (firstname lastname email skills_str file_url : String) :
    Except String (List (String × String)) :=
  match pyIndexStr parsed "phone" with
  | .error m => .error m
  | .ok phone =>
  match pyIndexStr parsed "job_title" with
  | .error m => .error m
  | .ok jobtitle =>
  match pyIndexStr parsed "company" with
  | .error m => .error m
  | .ok company =>
    .ok [("firstname", firstname), ("lastname", lastname), ("email", email),
         ("phone", phone), ("jobtitle", jobtitle), ("company", company),
         ("skills", skills_str), ("resume_file_url", file_url)]

/-- The skill-taxonomy merge, line 176: `combined = existing.union(incoming)`. -/
def mergeSkills (existing incoming : Finset String) : Finset String :=
  existing ∪ incoming

/-- Line 180: `opts_payload = [\x7b"label": v, "value": v\x7d for v in sorted(combined)]`
(line 180). -/
def optsPayloadOf (combined : Finset String) : List (String × String) :=
  (combined.sort (· ≤ ·)).map (fun v => (v, v))

/-- The `POST /parse_resume/` handler (lines 109-283), one request.

Control-flow notes, each checked against the source:
* the `HTTPException(400, "Unsupported file format.")` raised at line 125
  sits inside the `try` whose `except Exception` (line 126) re-raises
  every exception — `HTTPException` included, since it derives from
  `Exception` — as a 500 whose detail embeds `str(e)`, which for an
  `HTTPException` is the status code, a colon and a space, then the detail;
* the empty-text check (line 129) is outside that `try` and returns 400;
* the `except Exception` around the upload call (line 136) likewise swallows the
  `HTTPException`s raised by `upload_bytes_to_hs`;
* everything from the LLM call to the upsert runs inside one `try` whose
  handlers return 500 `"Gemini returned invalid JSON."` for a
  `json.JSONDecodeError` and 500 "AI parsing failed: " plus the message for any other
  exception. -/
def parse_resume (env : Env) : HttpResult × Effects :=
  let extracted : Except String String :=
    if env.contentType = pdfCT then
      match env.pdfRaises with
      | some msg => .error ("Failed to extract text: " ++ msg)
      | none => .ok (extract_text_from_pdf env.pdfPages)
    else if env.contentType = docxCT ∨ env.contentType = docCT then
      match env.docxRaises with
      | some msg => .error ("Failed to extract text: " ++ msg)
      | none => .ok (extract_text_from_docx env.docxParagraphs).1
    else
      .error "Failed to extract text: 400: Unsupported file format."
  match extracted with
  | .error d => (.err 500 d, noEffects)
  | .ok text =>
  if pyStripStr text = "" then
    (.err 400 "No text extracted from the file.", noEffects)
  else
    match upload_bytes_to_hs env with
    | .error e =>
      (.err 500 ("File upload failed: " ++ toString e.1 ++ ": " ++ e.2),
       { noEffects with uploadCalled := true })
    | .ok file_url =>
      let effU : Effects := { noEffects with uploadCalled := true, llmCalled := true }
      match env.llmRaises with
      | some m => (.err 500 ("AI parsing failed: " ++ m), effU)
      | none =>
      match jsonParse (sanitize env.llmText) with
      | none => (.err 500 "Gemini returned invalid JSON.", effU)
      | some parsed =>
      match pyGetStrRaw parsed "name" with
      | .error m => (.err 500 ("AI parsing failed: " ++ m), effU)
      | .ok rawName =>
      let firstname := (splitFullName rawName).1
      let lastname := (splitFullName rawName).2
      match env.propReadRaises with
      | some m => (.err 500 ("AI parsing failed: " ++ m), { effU with propRead := true })
      | none =>
      let effR : Effects := { effU with propRead := true }
      let existing : Finset String := env.propOptions.toFinset
      match pyGetSkills parsed with
      | .error m => (.err 500 ("AI parsing failed: " ++ m), effR)
      | .ok incomingList =>
      let incoming : Finset String := incomingList.toFinset
      let opts_payload := optsPayloadOf (mergeSkills existing incoming)
      let effP : Effects := { effR with propUpdate := some opts_payload }
      match env.propUpdateRaises with
      | some m => (.err 500 ("AI parsing failed: " ++ m), effP)
      | none =>
      let skills_str := String.intercalate ";" (incoming.sort (· ≤ ·))
      match pyIndexStr parsed "email" with
      | .error m => (.err 500 ("AI parsing failed: " ++ m), effP)
      | .ok email =>
      let effS : Effects := { effP with searchReq := some (email, 1) }
      match env.searchRaises with
      | some m => (.err 500 ("AI parsing failed: " ++ m), effS)
      | none =>
      match env.searchFound with
      | some contact_id =>
        match updatePropsOf parsed firstname lastname skills_str file_url with
        | .error m => (.err 500 ("AI parsing failed: " ++ m), effS)
        | .ok props =>
          let effDone := { effS with contactUpdate := some (contact_id, props) }
          match env.updateRaises with
          | some m => (.err 500 ("AI parsing failed: " ++ m), effDone)
          | none => (.ok parsed, effDone)
      | none =>
        match createPropsOf parsed firstname lastname email skills_str file_url with
        | .error m => (.err 500 ("AI parsing failed: " ++ m), effS)
        | .ok props =>
          let effDone := { effS with contactCreate := some props }
          match env.createRaises with
          | some m => (.err 500 ("AI parsing failed: " ++ m), effDone)
          | none => (.ok parsed, effDone)

/-- A request environment in which every external collaborator behaves:
the upload succeeds with `url`, the LLM answers `t`, the CRM `skills`
property has option values `opts`, the contact search finds `found`, and
no collaborator raises. -/
def mkEnv (ct : String) (pages : List String) (url t : String)
    (opts : List String) (found : Option String) : Env :=
  { contentType := ct, pdfPages := pages, docxParagraphs := [],
    pdfRaises := none, docxRaises := none,
    uploadHttpOk := true, uploadStatus := 200, uploadBody := "",
    uploadUrl := some url,
    llmRaises := none, llmText := t, propOptions := opts,
    propReadRaises := none, propUpdateRaises := none,
    searchRaises := none, searchFound := found,
    updateRaises := none, createRaises := none }

/-! ## List lemmas about `takeWhile`/`dropWhile` over appends -/

theorem dropWhile_length_le {α : Type} (p : α → Bool) (l : List α) :
    (l.dropWhile p).length ≤ l.length :=
  List.Sublist.length_le (List.dropWhile_sublist _)

theorem dropWhile_append_nil {α : Type} {p : α → Bool} {xs : List α}
    (h : xs.dropWhile p = []) (ys : List α) :
    (xs ++ ys).dropWhile p = ys.dropWhile p := by
  induction xs with
  | nil => simp
  | cons a t ih =>
    simp only [List.dropWhile_cons] at h
    simp only [List.cons_append, List.dropWhile_cons]
    cases hp : p a
    · rw [hp] at h; simp at h
    · rw [hp] at h; simp only [if_true]
      exact ih h

theorem dropWhile_append_ne_nil {α : Type} {p : α → Bool} {xs : List α}
    (h : xs.dropWhile p ≠ []) (ys : List α) :
    (xs ++ ys).dropWhile p = xs.dropWhile p ++ ys := by
  induction xs with
  | nil => simp at h
  | cons a t ih =>
    simp only [List.dropWhile_cons] at h
    simp only [List.cons_append, List.dropWhile_cons]
    cases hp : p a
    · simp [hp]
    · rw [hp] at h
      simp only [if_true] at h ⊢
      exact ih h

theorem takeWhile_append_nil {α : Type} {p : α → Bool} {xs : List α}
    (h : xs.dropWhile p = []) (ys : List α) :
    (xs ++ ys).takeWhile p = xs ++ ys.takeWhile p := by
  induction xs with
  | nil => simp
  | cons a t ih =>
    simp only [List.dropWhile_cons] at h
    simp only [List.cons_append, List.takeWhile_cons]
    cases hp : p a
    · rw [hp] at h; simp at h
    · rw [hp] at h
      simp only [if_true, List.cons.injEq, true_and]
      exact ih h

theorem takeWhile_append_ne_nil {α : Type} {p : α → Bool} {xs : List α}
    (h : xs.dropWhile p ≠ []) (ys : List α) :
    (xs ++ ys).takeWhile p = xs.takeWhile p := by
  induction xs with
  | nil => simp at h
  | cons a t ih =>
    simp only [List.dropWhile_cons] at h
    simp only [List.cons_append, List.takeWhile_cons]
    cases hp : p a
    · simp [hp]
    · rw [hp] at h
      simp only [if_true, List.cons.injEq, true_and] at h ⊢
      exact ih h

theorem dropWhile_eq_self_mono {α : Type} {p : α → Bool} {m t : List α}
    (hm : m.dropWhile p = m) (ht : t <+: m) : t.dropWhile p = t := by
  cases t with
  | nil => rfl
  | cons a t2 =>
    obtain ⟨s, hs⟩ := ht
    rw [← hs] at hm
    cases hpa : p a
    · rw [List.dropWhile_cons, hpa]; simp
    · exfalso
      rw [List.cons_append, List.dropWhile_cons, hpa, if_pos rfl] at hm
      have hle := dropWhile_length_le p (t2 ++ s)
      rw [hm] at hle
      simp at hle

theorem pyStripL_idem (l : List Char) : pyStripL (pyStripL l) = pyStripL l := by
  unfold pyStripL
  rw [dropWhile_eq_self_mono
      (List.dropWhile_idempotent pyIsSpace l)
      ( List.rdropWhile_prefix pyIsSpace (l.dropWhile pyIsSpace)),
    List.rdropWhile_idempotent]

theorem rdropWhile_append_rtakeWhile {α : Type} (p : α → Bool) (l : List α) :
    l.rdropWhile p ++ l.rtakeWhile p = l := by
  rw [List.rdropWhile, List.rtakeWhile, ← List.reverse_append,
    List.takeWhile_append_dropWhile, List.reverse_reverse]

/-! ## Lemmas about `wsTokens` (Python `str.split()`) -/

theorem wsTokens_nil : wsTokens [] = [] := by
  simp [wsTokens]

theorem wsTokens_cons (c : Char) (cs : List Char) :
    wsTokens (c :: cs) =
      if pyIsSpace c then wsTokens cs
      else (c :: cs.takeWhile (fun d => !pyIsSpace d)) ::
        wsTokens (cs.dropWhile (fun d => !pyIsSpace d)) := by
  simp [wsTokens]

theorem takeWhile_nonws_nil {w : List Char} (hw : ∀ c ∈ w, pyIsSpace c = true) :
    w.takeWhile (fun d => !pyIsSpace d) = [] := by
  cases w with
  | nil => rfl
  | cons c cs => simp [List.takeWhile_cons, hw c (List.mem_cons_self c cs)]

theorem dropWhile_nonws_self {w : List Char} (hw : ∀ c ∈ w, pyIsSpace c = true) :
    w.dropWhile (fun d => !pyIsSpace d) = w := by
  cases w with
  | nil => rfl
  | cons c cs => simp [List.dropWhile_cons, hw c (List.mem_cons_self c cs)]

theorem wsTokens_nil_of_ws {w : List Char} (hw : ∀ c ∈ w, pyIsSpace c = true) :
    wsTokens w = [] := by
  induction w with
  | nil => exact wsTokens_nil
  | cons c cs ih =>
    rw [wsTokens_cons, if_pos (hw c (List.mem_cons_self c cs))]
    exact ih (fun d hd => hw d (List.mem_cons_of_mem _ hd))

theorem wsTokens_append_ws {w : List Char} (hw : ∀ c ∈ w, pyIsSpace c = true)
    (l : List Char) : wsTokens (l ++ w) = wsTokens l := by
  have H : ∀ n, ∀ l : List Char, l.length ≤ n → wsTokens (l ++ w) = wsTokens l := by
    intro n
    induction n with
    | zero =>
      intro l hl
      have hl0 : l = [] := List.eq_nil_of_length_eq_zero (Nat.le_zero.mp hl)
      subst hl0
      rw [List.nil_append, wsTokens_nil]
      exact wsTokens_nil_of_ws hw
    | succ n ih =>
      intro l hl
      match l with
      | [] =>
        rw [List.nil_append, wsTokens_nil]
        exact wsTokens_nil_of_ws hw
      | c :: cs =>
        rw [List.cons_append, wsTokens_cons, wsTokens_cons]
        cases hc : pyIsSpace c
        · rw [if_neg (by simp [hc]), if_neg (by simp [hc])]
          by_cases hcs : cs.dropWhile (fun d => !pyIsSpace d) = []
          · rw [takeWhile_append_nil hcs w, takeWhile_nonws_nil hw,
              dropWhile_append_nil hcs w, dropWhile_nonws_self hw,
              wsTokens_nil_of_ws hw, hcs]
            have hcs2 : cs.takeWhile (fun d => !pyIsSpace d) = cs := by
              have h3 := List.takeWhile_append_dropWhile
                (p := fun d => !pyIsSpace d) (l := cs)
              rw [hcs, List.append_nil] at h3
              exact h3
            rw [hcs2, List.append_nil, wsTokens_nil]
          · rw [takeWhile_append_ne_nil hcs w, dropWhile_append_ne_nil hcs w]
            have hlen : (cs.dropWhile (fun d => !pyIsSpace d)).length ≤ n := by
              have h1 := dropWhile_length_le (fun d => !pyIsSpace d) cs
              have h2 : cs.length ≤ n := by
                simpa using Nat.le_of_succ_le_succ hl
              omega
            rw [ih _ hlen]
        · rw [if_pos (by simp [hc]), if_pos (by simp [hc])]
          exact ih cs (by simpa using Nat.le_of_succ_le_succ hl)
  exact H l.length l (Nat.le_refl _)

theorem wsTokens_dropWhile_ws (l : List Char) :
    wsTokens (l.dropWhile pyIsSpace) = wsTokens l := by
  induction l with
  | nil => rfl
  | cons c cs ih =>
    rw [List.dropWhile_cons]
    cases hc : pyIsSpace c
    · simp
    · rw [if_pos rfl, ih, wsTokens_cons, if_pos hc]

theorem wsTokens_pyStripL (l : List Char) : wsTokens (pyStripL l) = wsTokens l := by
  unfold pyStripL
  have h1 : wsTokens ((l.dropWhile pyIsSpace).rdropWhile pyIsSpace ++
      (l.dropWhile pyIsSpace).rtakeWhile pyIsSpace) =
      wsTokens ((l.dropWhile pyIsSpace).rdropWhile pyIsSpace) :=
    wsTokens_append_ws (fun c hc => List.mem_rtakeWhile_imp hc) _
  rw [rdropWhile_append_rtakeWhile] at h1
  rw [← h1, wsTokens_dropWhile_ws]

/-! ## Lemmas about the fence sanitizer -/

theorem pyStripL_tick (M : List Char) :
    pyStripL (('`' :: M) ++ ['`']) = ('`' :: M) ++ ['`'] := by
  unfold pyStripL
  have h1 : (('`' :: M) ++ ['`']).dropWhile pyIsSpace = ('`' :: M) ++ ['`'] := by
    rw [List.cons_append, List.dropWhile_cons, if_neg (by decide), ← List.cons_append]
  rw [h1]
  exact List.rdropWhile_concat_neg _ _ _ (by decide)

theorem stripLeadingFence_json (x : List Char) :
    stripLeadingFence ('`' :: '`' :: '`' :: 'j' :: 's' :: 'o' :: 'n' :: '\n' :: x) =
      x.dropWhile pyIsSpace := by
  unfold stripLeadingFence
  have h7 : ('`' :: '`' :: '`' :: 'j' :: 's' :: 'o' :: 'n' :: '\n' :: x).take 7 =
      "```json".data := rfl
  rw [if_pos h7]
  have h : ('`' :: '`' :: '`' :: 'j' :: 's' :: 'o' :: 'n' :: '\n' :: x).drop 7 = '\n' :: x := rfl
  rw [h, List.dropWhile_cons, if_pos (by decide)]

theorem stripLeadingFence_plain (x : List Char) :
    stripLeadingFence ('`' :: '`' :: '`' :: '\n' :: x) = x.dropWhile pyIsSpace := by
  unfold stripLeadingFence
  have h3 : ('`' :: '`' :: '`' :: '\n' :: x).take 3 = "```".data := rfl
  rw [if_neg, if_pos h3]
  · have h : ('`' :: '`' :: '`' :: '\n' :: x).drop 3 = '\n' :: x := rfl
    rw [h, List.dropWhile_cons, if_pos (by decide)]
  · intro h
    have h4 : ('`' :: '`' :: '`' :: '\n' :: x).take 7 =
        '`' :: '`' :: '`' :: '\n' :: x.take 3 := rfl
    rw [h4] at h
    have : '\n' = 'j' := by
      have := List.cons.inj h
      have := List.cons.inj this.2
      have := List.cons.inj this.2
      exact (List.cons.inj this.2).1
    exact absurd this (by decide)

theorem rtake3_append (E : List Char) :
    (E ++ ['\n', '`', '`', '`']).rtake 3 = ['`', '`', '`'] := by
  rw [List.rtake_eq_reverse_take_reverse]
  simp [List.reverse_append]

theorem rdrop3_append (E : List Char) :
    (E ++ ['\n', '`', '`', '`']).rdrop 3 = E ++ ['\n'] := by
  rw [List.rdrop_eq_reverse_drop_reverse]
  simp [List.reverse_append]

theorem stripTrailingFence_append (E : List Char) :
    stripTrailingFence (E ++ ['\n', '`', '`', '`']) = E.rdropWhile pyIsSpace := by
  unfold stripTrailingFence
  rw [if_pos]
  · rw [rdrop3_append]
    exact List.rdropWhile_concat_pos pyIsSpace E '\n' (by decide)
  · rw [rtake3_append]

theorem stripTrailingFence_ticks : stripTrailingFence ['`', '`', '`'] = [] := by
  decide

theorem sanitizeL_wrap_core (x : List Char) :
    stripTrailingFence ((x ++ ['\n', '`', '`', '`']).dropWhile pyIsSpace) =
      pyStripL x := by
  by_cases hx : x.dropWhile pyIsSpace = []
  · rw [dropWhile_append_nil hx]
    have h1 : (['\n', '`', '`', '`'] : List Char).dropWhile pyIsSpace = ['`', '`', '`'] := by
      decide
    rw [h1, stripTrailingFence_ticks]
    unfold pyStripL
    rw [hx]
    rfl
  · rw [dropWhile_append_ne_nil hx, stripTrailingFence_append]
    rfl

theorem sanitize_fenceWrap_json (p : String) :
    sanitize (fenceWrap "json" p) = pyStripStr p := by
  have hdata : (fenceWrap "json" p).data =
      '`' :: '`' :: '`' :: 'j' :: 's' :: 'o' :: 'n' :: '\n' ::
        (p.data ++ ['\n', '`', '`', '`']) := rfl
  show (⟨sanitizeL (fenceWrap "json" p).data⟩ : String) = ⟨pyStripL p.data⟩
  rw [hdata]
  unfold sanitizeL
  have hstrip : pyStripL ('`' :: '`' :: '`' :: 'j' :: 's' :: 'o' :: 'n' :: '\n' ::
      (p.data ++ ['\n', '`', '`', '`'])) =
      '`' :: '`' :: '`' :: 'j' :: 's' :: 'o' :: 'n' :: '\n' ::
      (p.data ++ ['\n', '`', '`', '`']) := by
    have hshape : '`' :: '`' :: '`' :: 'j' :: 's' :: 'o' :: 'n' :: '\n' ::
        (p.data ++ ['\n', '`', '`', '`']) =
        ('`' :: ('`' :: '`' :: 'j' :: 's' :: 'o' :: 'n' :: '\n' ::
          (p.data ++ ['\n', '`', '`']))) ++ ['`'] := by
      simp
    rw [hshape]
    exact pyStripL_tick _
  rw [hstrip, stripLeadingFence_json, sanitizeL_wrap_core]

theorem sanitize_fenceWrap_plain (p : String) :
    sanitize (fenceWrap "" p) = pyStripStr p := by
  have hdata : (fenceWrap "" p).data =
      '`' :: '`' :: '`' :: '\n' :: (p.data ++ ['\n', '`', '`', '`']) := rfl
  show (⟨sanitizeL (fenceWrap "" p).data⟩ : String) = ⟨pyStripL p.data⟩
  rw [hdata]
  unfold sanitizeL
  have hstrip : pyStripL ('`' :: '`' :: '`' :: '\n' ::
      (p.data ++ ['\n', '`', '`', '`'])) =
      '`' :: '`' :: '`' :: '\n' :: (p.data ++ ['\n', '`', '`', '`']) := by
    have hshape : '`' :: '`' :: '`' :: '\n' :: (p.data ++ ['\n', '`', '`', '`']) =
        ('`' :: ('`' :: '`' :: '\n' :: (p.data ++ ['\n', '`', '`']))) ++ ['`'] := by
      simp
    rw [hshape]
    exact pyStripL_tick _
  rw [hstrip, stripLeadingFence_plain, sanitizeL_wrap_core]

theorem jsonParse_pyStrip (s : String) : jsonParse (pyStripStr s) = jsonParse s := by
  show jsonParse ⟨pyStripL s.data⟩ = jsonParse s
  unfold jsonParse
  have h : pyStripL ((⟨pyStripL s.data⟩ : String).data) = pyStripL s.data := by
    show pyStripL (pyStripL s.data) = pyStripL s.data
    exact pyStripL_idem s.data
  rw [h]

/-! ## Claim theorems -/

/-- C5: skill merge is monotonic.  The merge computed at line 176 is the
set union, so the existing enumeration is contained in it, and every
existing value survives (as a label-equals-value option) in the payload
pushed back to the CRM at lines 180-194: no skill value already present
is ever removed. -/
theorem skill_merge_monotonic (existing incoming : Finset String) :
    existing ⊆ mergeSkills existing incoming ∧
      ∀ v ∈ existing, (v, v) ∈ optsPayloadOf (mergeSkills existing incoming) := by
  constructor
  · exact Finset.subset_union_left
  · intro v hv
    have hm : v ∈ mergeSkills existing incoming := Finset.subset_union_left hv
    have hs : v ∈ (mergeSkills existing incoming).sort (· ≤ ·) := by
      rw [Finset.mem_sort]
      exact hm
    exact List.mem_map.mpr ⟨v, hs, rfl⟩

theorem skill_merge_monotonic_witness :
    ({"Go", "Python"} : Finset String) ⊆ mergeSkills {"Go", "Python"} {"Rust"} ∧
      ∀ v ∈ ({"Go", "Python"} : Finset String),
        (v, v) ∈ optsPayloadOf (mergeSkills {"Go", "Python"} {"Rust"}) :=
  skill_merge_monotonic {"Go", "Python"} {"Rust"}

/-- C6: for every JSON payload and both fenced-code-block wrappings (with
or without a `json` tag after the opening fence), sanitizing and then
parsing yields exactly the value parsed from the unwrapped payload. -/
theorem sanitize_fence_roundtrip (p tag : String) (v : Json)
    (htag : tag = "json" ∨ tag = "") (hp : jsonParse p = some v) :
    jsonParse (sanitize (fenceWrap tag p)) = some v := by
  rcases htag with h | h
  · subst h
    rw [sanitize_fenceWrap_json, jsonParse_pyStrip, hp]
  · subst h
    rw [sanitize_fenceWrap_plain, jsonParse_pyStrip, hp]

theorem sanitize_fence_roundtrip_witness :
    jsonParse (sanitize (fenceWrap "json" "\x7b\"a\": [1, true]\x7d")) =
      some (Json.obj [("a", Json.arr [Json.num "1", Json.bool true])]) :=
  sanitize_fence_roundtrip "\x7b\"a\": [1, true]\x7d" "json" _ (Or.inl rfl) rfl

/-- C8: name splitting (lines 160-163).  The name is split on whitespace
runs; the first token is the firstname; the remaining tokens joined by
single spaces are the lastname; a name with no tokens (empty or
all-whitespace) yields empty first and last names.  The first conjunct
shows the stripping at line 160 and the `len(parts) > 1` guard at line 163
do not change this reading. -/
theorem split_name_spec (name : String) :
    splitFullName name =
      ((pyWsSplit name).headD "", String.intercalate " " (pyWsSplit name).tail) ∧
      ((∀ c ∈ name.data, pyIsSpace c = true) → splitFullName name = ("", "")) := by
  have hsplit : pyWsSplit (pyStripStr name) = pyWsSplit name := by
    unfold pyWsSplit
    show (wsTokens (pyStripL name.data)).map _ = _
    rw [wsTokens_pyStripL]
  constructor
  · unfold splitFullName
    rw [hsplit]
    rcases hp : pyWsSplit name with _ | ⟨x, _ | ⟨y, t⟩⟩
    · simp [String.intercalate]
    · simp [String.intercalate]
    · simp
  · intro hws
    unfold splitFullName
    rw [hsplit]
    have h0 : pyWsSplit name = [] := by
      unfold pyWsSplit
      rw [wsTokens_nil_of_ws hws]
      rfl
    rw [h0]
    rfl

theorem split_name_spec_witness :
    splitFullName " John  Michael  Doe " =
      ((pyWsSplit " John  Michael  Doe ").headD "",
       String.intercalate " " (pyWsSplit " John  Michael  Doe ").tail) ∧
      splitFullName " \t " = ("", "") :=
  ⟨(split_name_spec " John  Michael  Doe ").1,
   (split_name_spec " \t ").2 (by decide)⟩

/-- C9: the claim says the DOCX temporary file is deleted immediately
after the extraction call; the code (lines 68-73) creates it with
`delete=False` and never unlinks it, so for every input the temporary
file persists past the call.  This theorem documents the code behaviour
that refutes the claim. -/
theorem docx_tmpfile_persists (paragraphs : List String) :
    tmpPersists (extract_text_from_docx paragraphs).2 = true := rfl

/-- C1 (code behaviour at the divergence): for a content type outside the
accepted three, the endpoint returns HTTP 500, not the claimed 400: the
`HTTPException(400, "Unsupported file format.")` of line 125 is raised
inside the `try` whose blanket `except Exception` (line 126) re-raises it
as 500 with the original message embedded.  The rest of the claim holds:
no LLM, CRM, or uploader call is made. -/
theorem unsupported_type_gives_500 (env : Env)
    (h1 : env.contentType ≠ pdfCT) (h2 : env.contentType ≠ docxCT)
    (h3 : env.contentType ≠ docCT) :
    parse_resume env =
      (.err 500 "Failed to extract text: 400: Unsupported file format.",
       noEffects) := by
  unfold parse_resume
  rw [if_neg h1, if_neg (fun h => Or.elim h h2 h3)]

theorem unsupported_type_gives_500_witness :
    parse_resume (mkEnv "text/plain" ["resume text"] "url" "\x7b\x7d" [] none) =
      (.err 500 "Failed to extract text: 400: Unsupported file format.",
       noEffects) :=
  unsupported_type_gives_500 _ (by decide) (by decide) (by decide)

theorem toStrList_map_str (l : List String) :
    toStrList (l.map Json.str) = some l := by
  induction l with
  | nil => rfl
  | cons s rest ih => simp [toStrList, ih]

/-- C4: an accepted file whose extracted text is empty or only whitespace
gets HTTP 400 ("No text extracted from the file.") and the document-store
uploader is never called (nor is anything after it). -/
theorem empty_extraction_400 (env : Env)
    (h : (env.contentType = pdfCT ∧ env.pdfRaises = none ∧
            pyStripStr (extract_text_from_pdf env.pdfPages) = "") ∨
         ((env.contentType = docxCT ∨ env.contentType = docCT) ∧
            env.docxRaises = none ∧
            pyStripStr (extract_text_from_docx env.docxParagraphs).1 = "")) :
    (parse_resume env).1 = .err 400 "No text extracted from the file." ∧
      (parse_resume env).2.uploadCalled = false := by
  rcases h with ⟨hct, hraise, htext⟩ | ⟨hct, hraise, htext⟩
  · unfold parse_resume
    rw [if_pos hct, hraise]
    simp only [htext, if_pos]
    exact ⟨trivial, rfl⟩
  · have hne : env.contentType ≠ pdfCT := by
      rcases hct with h | h <;> rw [h] <;> decide
    unfold parse_resume
    rw [if_neg hne, if_pos hct, hraise]
    simp only [htext, if_pos]
    exact ⟨trivial, rfl⟩

theorem empty_extraction_400_witness :
    (parse_resume (mkEnv pdfCT [" ", "\n\t "] "url" "\x7b\x7d" [] none)).1 =
      .err 400 "No text extracted from the file." ∧
      (parse_resume (mkEnv pdfCT [" ", "\n\t "] "url" "\x7b\x7d" [] none)).2.uploadCalled
        = false :=
  empty_extraction_400 _ (Or.inl ⟨rfl, rfl, by decide⟩)

/-- C3: when the LLM response text is not parseable as JSON even after
fence stripping, the endpoint answers 500 "Gemini returned invalid JSON."
and no CRM operation is issued: no schema read, no schema update, no
contact search, no contact update, no contact create.  Stated on the PDF
path with a successful upload, quantified over the response text. -/
theorem invalid_model_output_500 (pages : List String) (url t : String)
    (opts : List String) (found : Option String)
    (htext : ¬ pyStripStr (extract_text_from_pdf pages) = "")
    (hparse : jsonParse (sanitize t) = none) :
    parse_resume (mkEnv pdfCT pages url t opts found) =
      (.err 500 "Gemini returned invalid JSON.",
       { noEffects with uploadCalled := true, llmCalled := true }) := by
  unfold parse_resume mkEnv upload_bytes_to_hs
  simp only [hparse, if_pos rfl, if_neg htext, if_true]

theorem invalid_model_output_500_witness :
    parse_resume (mkEnv pdfCT ["John Doe resume"] "url"
        "```json\n\x7b\"name\": \"John\",\x7d\n```" [] none) =
      (.err 500 "Gemini returned invalid JSON.",
       { noEffects with uploadCalled := true, llmCalled := true }) :=
  invalid_model_output_500 _ _ _ _ _ (by decide) rfl

/-- C2: the upsert (lines 198-243).  For a parsed resume with string
fields, the handler searches the CRM by the parsed email with limit 1; if
a contact is found, that contact is updated with firstname, lastname,
phone, jobtitle, company, the semicolon-joined incoming skills and the
resume file URL, and no contact is created; if none is found a contact is
created with the same fields plus email; in both cases the response is
HTTP 200 whose body is the parsed object itself (so its skills list is
the submitted one, not the merged taxonomy). -/
theorem upsert_by_email_spec (pages : List String) (url t : String)
    (opts : List String) (found : Option String)
    (ms : List (String × Json)) (nm em ph jt co : String) (sk : List String)
    (htext : ¬ pyStripStr (extract_text_from_pdf pages) = "")
    (hparse : jsonParse (sanitize t) = some (Json.obj ms))
    (hname : objLookup ms "name" = some (Json.str nm))
    (hskills : objLookup ms "skills" = some (Json.arr (sk.map Json.str)))
    (hemail : objLookup ms "email" = some (Json.str em))
    (hphone : objLookup ms "phone" = some (Json.str ph))
    (hjob : objLookup ms "job_title" = some (Json.str jt))
    (hcomp : objLookup ms "company" = some (Json.str co)) :
    (∀ cid, found = some cid →
      parse_resume (mkEnv pdfCT pages url t opts found) =
        (.ok (Json.obj ms),
         { llmCalled := true, uploadCalled := true, propRead := true,
           propUpdate := some (optsPayloadOf (mergeSkills opts.toFinset sk.toFinset)),
           searchReq := some (em, 1),
           contactUpdate := some (cid,
             [("firstname", (splitFullName nm).1),
              ("lastname", (splitFullName nm).2),
              ("phone", ph), ("jobtitle", jt), ("company", co),
              ("skills", String.intercalate ";" (sk.toFinset.sort (· ≤ ·))),
              ("resume_file_url", url)]),
           contactCreate := none })) ∧
    (found = none →
      parse_resume (mkEnv pdfCT pages url t opts found) =
        (.ok (Json.obj ms),
         { llmCalled := true, uploadCalled := true, propRead := true,
           propUpdate := some (optsPayloadOf (mergeSkills opts.toFinset sk.toFinset)),
           searchReq := some (em, 1),
           contactUpdate := none,
           contactCreate := some
             [("firstname", (splitFullName nm).1),
              ("lastname", (splitFullName nm).2),
              ("email", em), ("phone", ph), ("jobtitle", jt), ("company", co),
              ("skills", String.intercalate ";" (sk.toFinset.sort (· ≤ ·))),
              ("resume_file_url", url)] })) := by
  constructor
  · intro cid hfound
    subst hfound
    unfold parse_resume mkEnv upload_bytes_to_hs updatePropsOf
    simp only [hparse, if_pos rfl, if_neg htext, if_true, pyGetStrRaw, pyGet,
      hname, pyGetSkills, hskills, toStrList_map_str, noEffects,
      pyIndexStr, pyIndex, hemail, hphone, hjob, hcomp, Option.getD]
  · intro hfound
    subst hfound
    unfold parse_resume mkEnv upload_bytes_to_hs createPropsOf
    simp only [hparse, if_pos rfl, if_neg htext, if_true, pyGetStrRaw, pyGet,
      hname, pyGetSkills, hskills, toStrList_map_str, noEffects,
      pyIndexStr, pyIndex, hemail, hphone, hjob, hcomp, Option.getD]

theorem upsert_by_email_spec_witness :
    parse_resume (mkEnv pdfCT ["x"] "http://u"
        "\x7b\"name\": \"Jo Do Ra\", \"email\": \"a@b\", \"phone\": \"1\", \"job_title\": \"E\", \"skills\": [\"Py\", \"Go\"], \"company\": \"A\"\x7d"
        ["Go", "C"] (some "cid7")) =
      (.ok (Json.obj [("name", Json.str "Jo Do Ra"), ("email", Json.str "a@b"),
        ("phone", Json.str "1"), ("job_title", Json.str "E"),
        ("skills", Json.arr [Json.str "Py", Json.str "Go"]),
        ("company", Json.str "A")]),
       { llmCalled := true, uploadCalled := true, propRead := true,
         propUpdate := some (optsPayloadOf
           (mergeSkills (["Go", "C"] : List String).toFinset
             (["Py", "Go"] : List String).toFinset)),
         searchReq := some ("a@b", 1),
         contactUpdate := some ("cid7",
           [("firstname", (splitFullName "Jo Do Ra").1),
            ("lastname", (splitFullName "Jo Do Ra").2),
            ("phone", "1"), ("jobtitle", "E"), ("company", "A"),
            ("skills", String.intercalate ";"
              ((["Py", "Go"] : List String).toFinset.sort (· ≤ ·))),
            ("resume_file_url", "http://u")]),
         contactCreate := none }) :=
  (upsert_by_email_spec ["x"] "http://u"
    "\x7b\"name\": \"Jo Do Ra\", \"email\": \"a@b\", \"phone\": \"1\", \"job_title\": \"E\", \"skills\": [\"Py\", \"Go\"], \"company\": \"A\"\x7d"
    ["Go", "C"] (some "cid7")
    [("name", Json.str "Jo Do Ra"), ("email", Json.str "a@b"),
     ("phone", Json.str "1"), ("job_title", Json.str "E"),
     ("skills", Json.arr [Json.str "Py", Json.str "Go"]),
     ("company", Json.str "A")]
    "Jo Do Ra" "a@b" "1" "E" "A" ["Py", "Go"]
    (by decide) rfl rfl rfl rfl rfl rfl rfl).1 "cid7" rfl

/-- C7: a model output that parses as a JSON object without an `email`
key makes the endpoint return HTTP 500 whose detail is the generic
handler prefix followed by the Python KeyError text — the message is
"AI parsing failed: 'email'" — rather than a distinct validated error
kind or a 400 client error. -/
theorem missing_email_unhandled_500 (pages : List String) (url t : String)
    (opts : List String) (found : Option String)
    (ms : List (String × Json)) (nm : String) (sk : List String)
    (htext : ¬ pyStripStr (extract_text_from_pdf pages) = "")
    (hparse : jsonParse (sanitize t) = some (Json.obj ms))
    (hname : objLookup ms "name" = some (Json.str nm))
    (hskills : objLookup ms "skills" = some (Json.arr (sk.map Json.str)))
    (hemail : objLookup ms "email" = none) :
    (parse_resume (mkEnv pdfCT pages url t opts found)).1 =
      .err 500 "AI parsing failed: 'email'" := by
  unfold parse_resume mkEnv upload_bytes_to_hs
  simp only [hparse, if_pos rfl, if_neg htext, if_true, pyGetStrRaw, pyGet,
    hname, pyGetSkills, hskills, toStrList_map_str, noEffects,
    pyIndexStr, pyIndex, hemail, Option.getD]
  rfl

theorem missing_email_unhandled_500_witness :
    (parse_resume (mkEnv pdfCT ["x"] "u"
        "\x7b\"name\": \"J\", \"skills\": []\x7d" [] none)).1 =
      .err 500 "AI parsing failed: 'email'" :=
  missing_email_unhandled_500 ["x"] "u" "\x7b\"name\": \"J\", \"skills\": []\x7d"
    [] none [("name", Json.str "J"), ("skills", Json.arr [])] "J" []
    (by decide) rfl rfl rfl rfl

/-- C10: when the parsed object has no `skills` key, the incoming skill
set defaults to empty: the schema update is still issued, its option list
being exactly the sorted existing enumeration with label equal to value,
and the contact upsert sets the skills field to the empty string (in the
update branch and in the create branch alike). -/
theorem missing_skills_defaults_empty (pages : List String) (url t : String)
    (opts : List String) (found : Option String)
    (ms : List (String × Json)) (nm em ph jt co : String)
    (htext : ¬ pyStripStr (extract_text_from_pdf pages) = "")
    (hparse : jsonParse (sanitize t) = some (Json.obj ms))
    (hname : objLookup ms "name" = some (Json.str nm))
    (hskills : objLookup ms "skills" = none)
    (hemail : objLookup ms "email" = some (Json.str em))
    (hphone : objLookup ms "phone" = some (Json.str ph))
    (hjob : objLookup ms "job_title" = some (Json.str jt))
    (hcomp : objLookup ms "company" = some (Json.str co)) :
    (∀ cid, found = some cid →
      parse_resume (mkEnv pdfCT pages url t opts found) =
        (.ok (Json.obj ms),
         { llmCalled := true, uploadCalled := true, propRead := true,
           propUpdate := some (optsPayloadOf opts.toFinset),
           searchReq := some (em, 1),
           contactUpdate := some (cid,
             [("firstname", (splitFullName nm).1),
              ("lastname", (splitFullName nm).2),
              ("phone", ph), ("jobtitle", jt), ("company", co),
              ("skills", ""), ("resume_file_url", url)]),
           contactCreate := none })) ∧
    (found = none →
      parse_resume (mkEnv pdfCT pages url t opts found) =
        (.ok (Json.obj ms),
         { llmCalled := true, uploadCalled := true, propRead := true,
           propUpdate := some (optsPayloadOf opts.toFinset),
           searchReq := some (em, 1),
           contactUpdate := none,
           contactCreate := some
             [("firstname", (splitFullName nm).1),
              ("lastname", (splitFullName nm).2),
              ("email", em), ("phone", ph), ("jobtitle", jt), ("company", co),
              ("skills", ""), ("resume_file_url", url)] })) := by
  constructor
  · intro cid hfound
    subst hfound
    unfold parse_resume mkEnv upload_bytes_to_hs updatePropsOf
    simp only [hparse, if_pos rfl, if_neg htext, if_true, pyGetStrRaw, pyGet,
      hname, pyGetSkills, hskills, toStrList, noEffects, mergeSkills,
      List.toFinset_nil, Finset.union_empty, Finset.sort_empty,
      pyIndexStr, pyIndex, hemail, hphone, hjob, hcomp, Option.getD,
      String.intercalate]
  · intro hfound
    subst hfound
    unfold parse_resume mkEnv upload_bytes_to_hs createPropsOf
    simp only [hparse, if_pos rfl, if_neg htext, if_true, pyGetStrRaw, pyGet,
      hname, pyGetSkills, hskills, toStrList, noEffects, mergeSkills,
      List.toFinset_nil, Finset.union_empty, Finset.sort_empty,
      pyIndexStr, pyIndex, hemail, hphone, hjob, hcomp, Option.getD,
      String.intercalate]

theorem missing_skills_defaults_empty_witness :
    parse_resume (mkEnv pdfCT ["x"] "u"
        "\x7b\"name\": \"J\", \"email\": \"a@b\", \"phone\": \"1\", \"job_title\": \"E\", \"company\": \"A\"\x7d"
        ["B", "A"] none) =
      (.ok (Json.obj [("name", Json.str "J"), ("email", Json.str "a@b"),
        ("phone", Json.str "1"), ("job_title", Json.str "E"),
        ("company", Json.str "A")]),
       { llmCalled := true, uploadCalled := true, propRead := true,
         propUpdate := some (optsPayloadOf (["B", "A"] : List String).toFinset),
         searchReq := some ("a@b", 1),
         contactUpdate := none,
         contactCreate := some
           [("firstname", (splitFullName "J").1),
            ("lastname", (splitFullName "J").2),
            ("email", "a@b"), ("phone", "1"), ("jobtitle", "E"),
            ("company", "A"), ("skills", ""), ("resume_file_url", "u")] }) :=
  (missing_skills_defaults_empty ["x"] "u"
    "\x7b\"name\": \"J\", \"email\": \"a@b\", \"phone\": \"1\", \"job_title\": \"E\", \"company\": \"A\"\x7d"
    ["B", "A"] none
    [("name", Json.str "J"), ("email", Json.str "a@b"),
     ("phone", Json.str "1"), ("job_title", Json.str "E"),
     ("company", Json.str "A")] "J" "a@b" "1" "E" "A"
    (by decide) rfl rfl rfl rfl rfl rfl rfl).2 rfl
